import Mathlib

/-!
Shallow embedding of `src/main_commented.cpp` ("The Last Helldiver"), a
single-file SFML arcade game.  Floats are modelled as exact rationals (ℚ).
The source compares Euclidean distances `sqrt(dx*dx+dy*dy) < r` against
positive thresholds; since `sqrt` is irrational in general, every such
comparison is embedded as the equivalent square comparison
`dx*dx+dy*dy < r*r` (exact for real arithmetic, as every threshold used by
the game is positive), and the test `length > 0` as `dx*dx+dy*dy > 0`.
The two places where the code divides by a computed length to normalize a
direction (`Enemy::update` and the `Bullet` constructor) produce a velocity
`d/|d| * speed` whose value is irrational in general; that value is kept as
an explicit parameter (`NormOps`), applied exactly where the source applies
it.  No claim below depends on the numeric value of a normalized velocity,
only on when normalization is skipped, so all theorems quantify over the
parameter.
-/

set_option maxRecDepth 100000

namespace Helldiver

/-- 2D vector, modelling `sf::Vector2f`. -/
structure Vec where
  x : ℚ
  y : ℚ
deriving DecidableEq, Repr

/-- `WINDOW_WIDTH` (main_commented.cpp line 10). -/
def WINDOW_WIDTH : ℚ := 1200

/-- `WINDOW_HEIGHT` (line 11). -/
def WINDOW_HEIGHT : ℚ := 700

/-- `PLAYER_SPEED` (line 14). -/
def PLAYER_SPEED : ℚ := 3

/-- `ENEMY_SPEED` (line 15). -/
def ENEMY_SPEED : ℚ := 1

/-- `BULLET_SPEED` (line 16). -/
def BULLET_SPEED : ℚ := 7

/-- `SAFE_ZONE_SHRINK_RATE` (line 19). -/
def SAFE_ZONE_SHRINK_RATE : ℚ := 1/10

/-- `BULLET_COOLDOWN` (line 22). -/
def BULLET_COOLDOWN : ℚ := 3/10

/-- Bullet shape radius: `shape(5)` in the `Bullet` constructor (line 105). -/
def bulletRadius : ℚ := 5

/-- Squared Euclidean distance between two points.  The source computes
`std::sqrt(dx*dx + dy*dy)` and compares it with a positive threshold; we
compare squares instead, which is equivalent. -/
def distSq (p q : Vec) : ℚ :=
  (p.x - q.x) * (p.x - q.x) + (p.y - q.y) * (p.y - q.y)

/-- The two normalized-direction velocities the source computes by dividing
by a Euclidean length (irrational in general): `seek speed d` stands for
`d/|d| * speed` in `Enemy::update` (lines 89-90), `aim d` for
`d/|d| * BULLET_SPEED` in the `Bullet` constructor (lines 110-111).
Kept abstract; every theorem holds for all choices, in particular the true one. -/
structure NormOps where
  seek : ℚ → Vec → Vec
  aim : Vec → Vec

/-- A trivial instantiation of `NormOps`, used only to evaluate theorems at
concrete inputs. -/
def ops0 : NormOps := ⟨fun _ _ => ⟨0, 0⟩, fun _ => ⟨0, 0⟩⟩

/-- Player state: `Player : Entity` — position, velocity, health
(speed is the constant `PLAYER_SPEED`). -/
structure PlayerSt where
  pos : Vec
  vel : Vec
  health : ℤ
deriving DecidableEq, Repr

/-- Enemy state: `Enemy : Entity` — position, velocity, per-enemy randomized
speed, health. -/
structure EnemySt where
  pos : Vec
  vel : Vec
  speed : ℚ
  health : ℤ
deriving DecidableEq, Repr

/-- Bullet state: circle position and velocity (radius is the constant
`bulletRadius`). -/
structure BulletSt where
  pos : Vec
  vel : Vec
deriving DecidableEq, Repr

/-- `Entity::isAlive` (line 46): health > 0. -/
def isAlive (health : ℤ) : Bool := 0 < health

/-- `Entity::takeDamage` (line 49): health -= amount. -/
def takeDamage (health : ℤ) (amount : ℤ) : ℤ := health - amount

/-- `SafeZone` constructor (lines 138-146): `radius = min(WINDOW_WIDTH,
WINDOW_HEIGHT) * 0.5` (`std::min(a, b)` is `b < a ? b : a`). -/
def initRadius : ℚ :=
  (if WINDOW_HEIGHT < WINDOW_WIDTH then WINDOW_HEIGHT else WINDOW_WIDTH) * (1/2)

/-- `minRadius` field set in the `SafeZone` constructor (line 139). -/
def minRadius : ℚ := 50

/-- `SafeZone::update` (lines 149-155): shrink by `SAFE_ZONE_SHRINK_RATE`
while strictly above `minRadius` (sprite rescaling omitted: presentation). -/
def zoneUpdate (radius : ℚ) : ℚ :=
  if radius > minRadius then radius - SAFE_ZONE_SHRINK_RATE else radius

/-- Window center, used as the zone center and the player start
(`WINDOW_WIDTH / 2, WINDOW_HEIGHT / 2`). -/
def windowCenter : Vec := ⟨WINDOW_WIDTH * (1/2), WINDOW_HEIGHT * (1/2)⟩

/-- `SafeZone::isInside` (lines 158-162): distance from the window center
strictly below the current radius (embedded via squares; the radius is
always ≥ `minRadius` = 50 > 0). -/
def isInside (radius : ℚ) (position : Vec) : Bool :=
  distSq position windowCenter < radius * radius

/-- Zone radius after `n` frames of `SafeZone::update`, starting from the
constructor's value. -/
def radiusAfter (n : ℕ) : ℚ := zoneUpdate^[n] initRadius

/-- `Player::handleInput` (lines 68-74): velocity rebuilt from the four
held-key flags; contributions add (diagonals are not normalized). -/
def playerVel (keyW keyS keyA keyD : Bool) : Vec :=
  ⟨(if keyA then -PLAYER_SPEED else 0) + (if keyD then PLAYER_SPEED else 0),
   (if keyW then -PLAYER_SPEED else 0) + (if keyS then PLAYER_SPEED else 0)⟩

/-- `Entity::move` / `sf::Sprite::move` (line 43): position += velocity,
with no clamping of any kind. -/
def moveVec (p v : Vec) : Vec := ⟨p.x + v.x, p.y + v.y⟩

/-- `Enemy::update` followed by `move` (lines 85-92 then 43): recompute the
seek velocity from the direction to the player, but only when the direction
has positive length (`if (length > 0)`, embedded as a positive squared
length); otherwise the velocity is left unchanged.  Then advance. -/
def enemyAdvance (ops : NormOps) (playerPos : Vec) (e : EnemySt) : EnemySt :=
  let d : Vec := ⟨playerPos.x - e.pos.x, playerPos.y - e.pos.y⟩
  let v : Vec := if 0 < d.x * d.x + d.y * d.y then ops.seek e.speed d else e.vel
  { e with vel := v, pos := moveVec e.pos v }

/-- `Bullet` constructor (lines 104-113): position from the arguments;
velocity is the normalized direction times `BULLET_SPEED` when the direction
has positive length, else it stays at its default value `(0,0)`
(`sf::Vector2f` default-initializes to zero). -/
def mkBullet (ops : NormOps) (pos dir : Vec) : BulletSt :=
  ⟨pos, if 0 < dir.x * dir.x + dir.y * dir.y then ops.aim dir else ⟨0, 0⟩⟩

/-- `Bullet::move` (line 116). -/
def moveBullet (b : BulletSt) : BulletSt := ⟨moveVec b.pos b.vel, b.vel⟩

/-- The bullet-culling test (line 297): strictly outside any of the four
window boundaries. -/
def outOfWindow (p : Vec) : Bool :=
  p.x < 0 || p.x > WINDOW_WIDTH || p.y < 0 || p.y > WINDOW_HEIGHT

/-- The bullet update loop (lines 295-300): move each bullet, erase it when
strictly out of the window, keep it otherwise. -/
def bulletsStep : List BulletSt → List BulletSt
  | [] => []
  | b :: bs =>
    let b2 := moveBullet b
    if outOfWindow b2.pos then bulletsStep bs else b2 :: bulletsStep bs

/-- The per-enemy bullet scan (lines 309-324): walk the bullet list in order;
at the first bullet whose distance to the enemy center is below
`bulletRadius + 12` (line 314, embedded via squares), erase that bullet and
stop (`break`), returning `some` of the remaining list; `none` when no bullet
is in range. -/
def scanBullets (enemyPos : Vec) : List BulletSt → Option (List BulletSt)
  | [] => none
  | b :: bs =>
    if distSq b.pos enemyPos < (bulletRadius + 12) * (bulletRadius + 12) then
      some bs
    else
      match scanBullets enemyPos bs with
      | some bs2 => some (b :: bs2)
      | none => none

/-- The enemy-player contact test (lines 329-331): 1 damage to the player
when the distance is below 20 (embedded via squares). -/
def contactDamage (playerPos enemyPos : Vec) : ℤ :=
  if distSq playerPos enemyPos < 20 * 20 then 1 else 0

/-- Outcome of processing one enemy (or a list of enemies) against the
shared bullet list: surviving enemies, remaining bullets, and the score,
kill-count and player-damage increments accumulated.  Player damage is
applied immediately in the source (`player.takeDamage(1)` line 331), but the
player's health is not read anywhere inside the loop, so accumulating it is
equivalent. -/
structure LoopOut where
  enemies : List EnemySt
  bullets : List BulletSt
  scoreInc : ℤ
  killInc : ℤ
  playerDmg : ℤ
deriving DecidableEq, Repr

/-- Collision resolution for one (already advanced) enemy (lines 307-333):
scan the bullets for the first in range; on a hit take 25 damage and erase
that bullet; a dead enemy (health ≤ 0) is removed and awards score 10 and
one kill; a surviving enemy then checks contact with the player. -/
def enemyCollide (playerPos : Vec) (e : EnemySt) (bs : List BulletSt) : LoopOut :=
  match scanBullets e.pos bs with
  | some bs2 =>
    let h2 := takeDamage e.health 25
    if isAlive h2 then
      ⟨[{ e with health := h2 }], bs2, 0, 0, contactDamage playerPos e.pos⟩
    else
      ⟨[], bs2, 10, 1, 0⟩
  | none => ⟨[e], bs, 0, 0, contactDamage playerPos e.pos⟩

/-- One iteration of the enemy loop body (lines 303-334): seek-and-move,
then collision resolution. -/
def enemyFrame (ops : NormOps) (playerPos : Vec) (e : EnemySt) (bs : List BulletSt) : LoopOut :=
  enemyCollide playerPos (enemyAdvance ops playerPos e) bs

/-- The whole enemy loop (lines 303-334), threading the shared bullet list
left to right; erasure keeps the order of survivors. -/
def enemiesLoop (ops : NormOps) (playerPos : Vec) : List EnemySt → List BulletSt → LoopOut
  | [], bs => ⟨[], bs, 0, 0, 0⟩
  | e :: es, bs =>
    let o := enemyFrame ops playerPos e bs
    let r := enemiesLoop ops playerPos es o.bullets
    ⟨o.enemies ++ r.enemies, r.bullets, o.scoreInc + r.scoreInc,
     o.killInc + r.killInc, o.playerDmg + r.playerDmg⟩

/-- Enemy construction (lines 81-82 and 247-248 / 343): position
`(rand() % WINDOW_WIDTH, rand() % WINDOW_HEIGHT)`, speed
`ENEMY_SPEED + (rand() % 20) / 10`, health 50, velocity default `(0,0)`. -/
def mkEnemy (randX randY randS : ℕ) : EnemySt :=
  ⟨⟨(randX % 1200 : ℕ), (randY % 700 : ℕ)⟩, ⟨0, 0⟩,
   ENEMY_SPEED + ((randS % 20 : ℕ) : ℚ) / 10, 50⟩

/-- The fire handler (lines 277-283): a left-click event creates one bullet
at the player's current position, aimed at the mouse, but only when the
bullet clock reads strictly more than `BULLET_COOLDOWN`; a successful fire
restarts the clock (sound playback omitted: presentation).  State is
(bullet list, clock reading). -/
def handleFire (ops : NormOps) (playerPos mouse : Vec) :
    List BulletSt × ℚ → List BulletSt × ℚ
  | (bs, elapsed) =>
    if elapsed > BULLET_COOLDOWN then
      (bs ++ [mkBullet ops playerPos ⟨mouse.x - playerPos.x, mouse.y - playerPos.y⟩], 0)
    else
      (bs, elapsed)

/-- A sequence of fire inputs: each input arrives a (nonnegative) time after
the previous clock reading and carries a mouse position; the clock
accumulates between inputs and is restarted by successful fires. -/
def fireSeq (ops : NormOps) (playerPos : Vec) :
    List BulletSt × ℚ → List (ℚ × Vec) → List BulletSt × ℚ
  | st, [] => st
  | st, (d, m) :: rest =>
    fireSeq ops playerPos (handleFire ops playerPos m (st.1, st.2 + d)) rest

/-- The spawn check (lines 342-345): when the accumulated timer is strictly
above 3.0 and the enemy count is strictly below 10, append one new enemy and
reset the timer; otherwise leave both alone. -/
def spawnStep (timer : ℚ) (es : List EnemySt) (randX randY randS : ℕ) :
    ℚ × List EnemySt :=
  if timer > 3 ∧ es.length < 10 then (0, es ++ [mkEnemy randX randY randS])
  else (timer, es)

/-- Whole-game mutable state owned by the main loop: player, enemies,
bullets, safe-zone radius, score, kill count, the spawn timer
`timeSinceLastSpawn` and the bullet-cooldown clock reading. -/
structure GameSt where
  player : PlayerSt
  enemies : List EnemySt
  bullets : List BulletSt
  radius : ℚ
  score : ℤ
  killCount : ℤ
  timeSinceLastSpawn : ℚ
  bulletElapsed : ℚ
deriving DecidableEq, Repr

/-- External inputs consumed by one frame: the four held movement keys, the
mouse positions of the left-click events polled this frame, the frame time
`deltaTime`, and the `rand()` draws a spawn would consume.  All events of a
frame are modelled at the same clock reading (the poll pass takes negligible
time); the clock advances by `dt` once per frame. -/
structure FrameInput where
  keyW : Bool
  keyS : Bool
  keyA : Bool
  keyD : Bool
  fires : List Vec
  dt : ℚ
  randX : ℕ
  randY : ℕ
  randS : ℕ
deriving Repr

/-- One iteration of the main loop (lines 269-358), simulation only (event
poll and fire handling, timers, player input and move, bullet update, enemy
loop, zone update and out-of-zone damage, spawn check); drawing and the HUD
are presentation and read-only.  The terminal check (line 361) is in
`runFrames`. -/
def frameStep (ops : NormOps) (i : FrameInput) (s : GameSt) : GameSt :=
  let fired := i.fires.foldl
    (fun st m => handleFire ops s.player.pos m st)
    (s.bullets, s.bulletElapsed + i.dt)
  let timer0 := s.timeSinceLastSpawn + i.dt
  let pvel := playerVel i.keyW i.keyS i.keyA i.keyD
  let ppos := moveVec s.player.pos pvel
  let bs1 := bulletsStep fired.1
  let r := enemiesLoop ops ppos s.enemies bs1
  let rad := zoneUpdate s.radius
  let zoneDmg : ℤ := if isInside rad ppos then 0 else 1
  let health := s.player.health - r.playerDmg - zoneDmg
  let spawned := spawnStep timer0 r.enemies i.randX i.randY i.randS
  { player := ⟨ppos, pvel, health⟩
    enemies := spawned.2
    bullets := r.bullets
    radius := rad
    score := s.score + r.scoreInc
    killCount := s.killCount + r.killInc
    timeSinceLastSpawn := spawned.1
    bulletElapsed := fired.2 }

/-- The two lines written to `game_score.txt` (line 364). -/
def scoreFileLines (score killCount : ℤ) : List String :=
  ["Final Score: " ++ toString score, "Kills: " ++ toString killCount]

/-- The full contents of `game_score.txt`: the two lines joined by a single
newline, exactly as `file << "Final Score: " << score << "\nKills: " <<
killCount` produces. -/
def scoreFile (score killCount : ℤ) : String :=
  String.intercalate "\n" (scoreFileLines score killCount)

/-- Session start (lines 237-266): player at the window center with health
100 (line 65), the initial enemies from the given `rand()` draws (line 247
spawns 5), no bullets, zone at its initial radius, score and kill count 0,
timers 0. -/
def initState (rands : List (ℕ × ℕ × ℕ)) : GameSt :=
  { player := ⟨windowCenter, ⟨0, 0⟩, 100⟩
    enemies := rands.map fun r => mkEnemy r.1 r.2.1 r.2.2
    bullets := []
    radius := initRadius
    score := 0
    killCount := 0
    timeSinceLastSpawn := 0
    bulletElapsed := 0 }

/-- The main loop with its terminal check (lines 269, 361-379): after each
frame, if the player is dead, write the score file, show the game-over
screen, pause and close — the loop then exits, so the remaining inputs are
never simulated.  `Sum.inl` is a still-running session, `Sum.inr` carries
the final state and the score-file contents written exactly once. -/
def runFrames (ops : NormOps) : List FrameInput → GameSt → GameSt ⊕ (GameSt × String)
  | [], s => Sum.inl s
  | i :: rest, s =>
    let s2 := frameStep ops i s
    if isAlive s2.player.health then runFrames ops rest s2
    else Sum.inr (s2, scoreFile s2.score s2.killCount)

/-- A frame with only the A key (move left) held, no clicks, zero frame
time. -/
def holdLeftInput : FrameInput := ⟨false, false, true, false, [], 0, 0, 0, 0⟩

/-- Initial `rand()` draws putting all five starting enemies at
(1100, 650), far from the player's leftward path. -/
def farRands : List (ℕ × ℕ × ℕ) :=
  [(1100, 650, 0), (1100, 650, 0), (1100, 650, 0), (1100, 650, 0), (1100, 650, 0)]

/-! ### Safe zone (claim C2) -/

lemma radiusAfter_succ (n : ℕ) : radiusAfter (n + 1) = zoneUpdate (radiusAfter n) := by
  simp [radiusAfter, Function.iterate_succ_apply']

lemma radius_closed_form (n : ℕ) :
    radiusAfter n = if n ≤ 3000 then 350 - (n : ℚ) / 10 else 50 := by
  induction n with
  | zero =>
    simp only [radiusAfter, Function.iterate_zero, id, initRadius,
      WINDOW_WIDTH, WINDOW_HEIGHT]
    norm_num
  | succ n ih =>
    rw [radiusAfter_succ, ih]
    simp only [zoneUpdate, minRadius, SAFE_ZONE_SHRINK_RATE, gt_iff_lt]
    rcases lt_trichotomy n 3000 with h | h | h
    · have hn : (n : ℚ) < 3000 := by exact_mod_cast h
      rw [if_pos (show n ≤ 3000 by omega),
        if_pos (show (50 : ℚ) < 350 - (n : ℚ) / 10 by linarith),
        if_pos (show n + 1 ≤ 3000 by omega)]
      push_cast
      ring
    · subst h
      norm_num
    · rw [if_neg (show ¬ n ≤ 3000 by omega), if_neg (show ¬ (50 : ℚ) < 50 by norm_num),
        if_neg (show ¬ n + 1 ≤ 3000 by omega)]

/-- C2: from its initial value 350, the safe-zone radius decreases by exactly
1/10 on each frame of the shrinking phase; after 3000 frames it is exactly
50, it equals the floor 50 exactly from frame 3000 on (the one-time
transition to the held state), and from then on it never moves: it is
monotonically non-increasing and never drops below the floor. -/
theorem C2_safe_zone_radius (n : ℕ) :
    radiusAfter 0 = 350 ∧
    radiusAfter n = (if n ≤ 3000 then 350 - (n : ℚ) / 10 else 50) ∧
    (n < 3000 → radiusAfter (n + 1) = radiusAfter n - 1 / 10) ∧
    radiusAfter (n + 1) ≤ radiusAfter n ∧
    50 ≤ radiusAfter n ∧
    (radiusAfter n = 50 ↔ 3000 ≤ n) := by
  have h0 : radiusAfter 0 = 350 := by rw [radius_closed_form]; norm_num
  have hn := radius_closed_form n
  have hs := radius_closed_form (n + 1)
  refine ⟨h0, hn, ?_, ?_, ?_, ?_⟩
  · intro h
    have hq : (n : ℚ) < 3000 := by exact_mod_cast h
    rw [hn, hs, if_pos (by omega), if_pos (by omega)]
    push_cast
    ring
  · rw [hn, hs]
    rcases le_or_lt (n + 1) 3000 with h | h
    · rw [if_pos h, if_pos (by omega)]
      have : (n : ℚ) ≤ (n : ℚ) + 1 := by linarith
      push_cast
      linarith
    · rcases le_or_lt n 3000 with h2 | h2
      · rw [if_neg (by omega), if_pos h2]
        have hq : (n : ℚ) ≤ 3000 := by exact_mod_cast h2
        linarith
      · rw [if_neg (by omega), if_neg (by omega)]
  · rw [hn]
    rcases le_or_lt n 3000 with h | h
    · rw [if_pos h]
      have hq : (n : ℚ) ≤ 3000 := by exact_mod_cast h
      linarith
    · rw [if_neg (by omega)]
  · rw [hn]
    rcases le_or_lt n 3000 with h | h
    · rw [if_pos h]
      constructor
      · intro he
        have hq : (n : ℚ) = 3000 := by linarith
        have : n = 3000 := by exact_mod_cast hq
        omega
      · intro he
        have : n = 3000 := by omega
        subst this
        norm_num
    · rw [if_neg (by omega)]
      constructor
      · intro _
        omega
      · intro _
        rfl

/-- Witness for C2 at the transition frame and one shrinking frame:
the radius is exactly 50 after 3000 updates, still 50 after 3001, and a
frame in the shrinking phase loses exactly 1/10. -/
theorem C2_safe_zone_radius_witness :
    radiusAfter 3000 = 50 ∧ radiusAfter 3001 = 50 ∧
    radiusAfter 2000 = 150 ∧ radiusAfter 2001 = radiusAfter 2000 - 1 / 10 := by
  have h1 := (C2_safe_zone_radius 3000).2.1
  have h2 := (C2_safe_zone_radius 3001).2.1
  have h3 := (C2_safe_zone_radius 2000).2.1
  have h4 := (C2_safe_zone_radius 2000).2.2.1 (by norm_num)
  norm_num at h1 h2 h3
  exact ⟨h1, h2, h3, h4⟩

/-! ### Bullet update and culling (claim C5) -/

lemma bulletsStep_eq_filter (bs : List BulletSt) :
    bulletsStep bs = (bs.map moveBullet).filter fun b => !outOfWindow b.pos := by
  induction bs with
  | nil => rfl
  | cons b bs ih =>
    simp only [bulletsStep, List.map_cons, List.filter_cons]
    rcases h : outOfWindow (moveBullet b).pos with _ | _
    · simp [h, ih]
    · simp [h, ih]

/-- C5: after moving by its velocity, a bullet is removed exactly when its
new position is strictly outside the window (x < 0 or x > width or y < 0 or
y > height); positions on the boundary (and inside) are kept, and every
bullet surviving the step is a moved input bullet whose position is not
outside — so a bullet that crosses outside disappears in the same step. -/
theorem C5_bullet_culling (bs : List BulletSt) :
    (bulletsStep bs = (bs.map moveBullet).filter fun b => !outOfWindow b.pos) ∧
    (∀ p : Vec, outOfWindow p = true ↔
      (p.x < 0 ∨ WINDOW_WIDTH < p.x ∨ p.y < 0 ∨ WINDOW_HEIGHT < p.y)) ∧
    (∀ p : Vec, 0 ≤ p.x → p.x ≤ WINDOW_WIDTH → 0 ≤ p.y → p.y ≤ WINDOW_HEIGHT →
      outOfWindow p = false) ∧
    (∀ b ∈ bs, outOfWindow (moveBullet b).pos = false → moveBullet b ∈ bulletsStep bs) ∧
    (∀ b2 ∈ bulletsStep bs, outOfWindow b2.pos = false ∧ b2 ∈ bs.map moveBullet) := by
  have hout : ∀ p : Vec, outOfWindow p = true ↔
      (p.x < 0 ∨ WINDOW_WIDTH < p.x ∨ p.y < 0 ∨ WINDOW_HEIGHT < p.y) := by
    intro p
    simp only [outOfWindow, Bool.or_eq_true, decide_eq_true_eq, gt_iff_lt]
    tauto
  refine ⟨bulletsStep_eq_filter bs, hout, ?_, ?_, ?_⟩
  · intro p h1 h2 h3 h4
    rcases h : outOfWindow p with _ | _
    · rfl
    · rw [hout] at h
      rcases h with h | h | h | h <;> linarith
  · intro b hb hkeep
    rw [bulletsStep_eq_filter]
    refine List.mem_filter.2 ⟨List.mem_map_of_mem moveBullet hb, ?_⟩
    simp [hkeep]
  · intro b2 hb2
    rw [bulletsStep_eq_filter] at hb2
    have h := List.mem_filter.1 hb2
    refine ⟨?_, h.1⟩
    rcases hh : outOfWindow b2.pos with _ | _
    · rfl
    · rw [hh] at h
      simp at h

/-- Witness for C5: a bullet moving past the right edge is removed, one
landing exactly on the edge stays. -/
theorem C5_bullet_culling_witness :
    bulletsStep [⟨⟨1198, 100⟩, ⟨7, 0⟩⟩, ⟨⟨1193, 100⟩, ⟨7, 0⟩⟩] =
      [⟨⟨1200, 100⟩, ⟨7, 0⟩⟩] ∧
    outOfWindow ⟨1205, 100⟩ = true := by
  have h := C5_bullet_culling [⟨⟨1198, 100⟩, ⟨7, 0⟩⟩, ⟨⟨1193, 100⟩, ⟨7, 0⟩⟩]
  refine ⟨?_, ?_⟩
  · rw [h.1]
    with_unfolding_all decide
  · rw [(h.2.1 ⟨1205, 100⟩)]
    with_unfolding_all decide

/-! ### Fire cooldown (claim C3) -/

/-- C3 counterexample: with the bullet clock reading exactly the cooldown
constant 3/10, the elapsed time is ≥ the cooldown, yet the fire handler
creates no bullet — the gate at line 277 is the strict comparison
`getElapsedTime().asSeconds() > BULLET_COOLDOWN`, so the claimed
"greater than or equal" iff fails at equality. -/
theorem C3_fire_cooldown_counterexample :
    BULLET_COOLDOWN ≤ (3 : ℚ) / 10 ∧
    (handleFire ops0 ⟨0, 0⟩ ⟨1, 0⟩ ([], 3 / 10)).1 = [] := by
  with_unfolding_all decide

lemma handleFire_fires (ops : NormOps) (ppos m : Vec) (bs : List BulletSt) (el : ℚ)
    (h : el > BULLET_COOLDOWN) :
    handleFire ops ppos m (bs, el) =
      (bs ++ [mkBullet ops ppos ⟨m.x - ppos.x, m.y - ppos.y⟩], 0) := by
  simp only [handleFire, if_pos h]

lemma handleFire_skips (ops : NormOps) (ppos m : Vec) (bs : List BulletSt) (el : ℚ)
    (h : ¬ el > BULLET_COOLDOWN) :
    handleFire ops ppos m (bs, el) = (bs, el) := by
  simp only [handleFire, if_neg h]

/-- C3 (amended): a fire input creates a bullet iff the elapsed time is
STRICTLY greater than the cooldown 3/10; a successful fire appends exactly
one bullet, positioned at the player, and resets the clock to 0; a failed
fire changes nothing; hence two fire inputs separated by less than the
cooldown produce exactly one bullet. -/
theorem C3_fire_cooldown (ops : NormOps) (ppos m m1 m2 : Vec)
    (bs : List BulletSt) (el d1 d2 : ℚ) :
    ((handleFire ops ppos m (bs, el)).1.length =
      if el > BULLET_COOLDOWN then bs.length + 1 else bs.length) ∧
    (el > BULLET_COOLDOWN →
      handleFire ops ppos m (bs, el) =
        (bs ++ [mkBullet ops ppos ⟨m.x - ppos.x, m.y - ppos.y⟩], 0)) ∧
    (mkBullet ops ppos ⟨m.x - ppos.x, m.y - ppos.y⟩).pos = ppos ∧
    (¬ el > BULLET_COOLDOWN → handleFire ops ppos m (bs, el) = (bs, el)) ∧
    (BULLET_COOLDOWN < d1 → 0 ≤ d2 → d2 < BULLET_COOLDOWN →
      (fireSeq ops ppos ([], 0) [(d1, m1), (d2, m2)]).1.length = 1) := by
  refine ⟨?_, handleFire_fires ops ppos m bs el, rfl,
    handleFire_skips ops ppos m bs el, ?_⟩
  · by_cases h : el > BULLET_COOLDOWN
    · rw [handleFire_fires ops ppos m bs el h, if_pos h]
      simp
    · rw [handleFire_skips ops ppos m bs el h, if_neg h]
  · intro h1 h2 h3
    have e1 : (0 : ℚ) + d1 > BULLET_COOLDOWN := by linarith
    have e2 : ¬ ((0 : ℚ) + d2 > BULLET_COOLDOWN) := by
      simp only [gt_iff_lt, not_lt]
      linarith
    simp only [fireSeq]
    rw [handleFire_fires ops ppos m1 [] (0 + d1) e1]
    simp only [fireSeq]
    rw [handleFire_skips ops ppos m2 _ (0 + d2) e2]
    simp [fireSeq]

/-- Witness for C3: inputs 2/5 apart from start and then 1/5 later — one
bullet only. -/
theorem C3_fire_cooldown_witness :
    (fireSeq ops0 ⟨0, 0⟩ ([], 0) [(2/5, ⟨9, 0⟩), (1/5, ⟨9, 0⟩)]).1.length = 1 := by
  refine (C3_fire_cooldown ops0 ⟨0, 0⟩ ⟨9, 0⟩ ⟨9, 0⟩ ⟨9, 0⟩ [] 0 (2/5) (1/5)).2.2.2.2
    ?_ ?_ ?_
  · rw [BULLET_COOLDOWN]
    norm_num
  · norm_num
  · rw [BULLET_COOLDOWN]
    norm_num

/-! ### Zero-length direction handling (claim C6) -/

/-- C6: when the enemy occupies the player's position, the seek direction
has zero length, normalization is skipped and the velocity is exactly the
previous one (the enemy still moves by that old velocity); a bullet whose
aim target equals the player's position keeps the default zero velocity.
Both updates are total — no division by zero can occur. -/
theorem C6_zero_length_directions (ops : NormOps) (ppos target : Vec) (e : EnemySt) :
    (e.pos = ppos →
      (enemyAdvance ops ppos e).vel = e.vel ∧
      (enemyAdvance ops ppos e).pos = moveVec e.pos e.vel) ∧
    (target = ppos →
      (mkBullet ops ppos ⟨target.x - ppos.x, target.y - ppos.y⟩).vel = ⟨0, 0⟩) := by
  constructor
  · intro h
    subst h
    have hz : (e.pos.x - e.pos.x) * (e.pos.x - e.pos.x) +
        (e.pos.y - e.pos.y) * (e.pos.y - e.pos.y) = 0 := by ring_nf
    constructor
    · simp only [enemyAdvance, hz]
      norm_num
    · simp only [enemyAdvance, hz]
      norm_num
  · intro h
    subst h
    have hz : (target.x - target.x) * (target.x - target.x) +
        (target.y - target.y) * (target.y - target.y) = 0 := by ring_nf
    simp only [mkBullet, hz]
    norm_num

/-- Witness for C6: an enemy sitting on the player keeps velocity (1, 2); a
bullet aimed at the player's own position gets velocity (0, 0). -/
theorem C6_zero_length_directions_witness :
    (enemyAdvance ops0 ⟨5, 6⟩ ⟨⟨5, 6⟩, ⟨1, 2⟩, 1, 50⟩).vel = ⟨1, 2⟩ ∧
    (mkBullet ops0 ⟨5, 6⟩ ⟨(5 : ℚ) - 5, (6 : ℚ) - 6⟩).vel = ⟨0, 0⟩ := by
  have h := C6_zero_length_directions ops0 ⟨5, 6⟩ ⟨5, 6⟩ ⟨⟨5, 6⟩, ⟨1, 2⟩, 1, 50⟩
  exact ⟨(h.1 rfl).1, h.2 rfl⟩

/-! ### Bullet-enemy collision resolution (claim C1) -/

lemma scanBullets_first (epos : Vec) (pre post : List BulletSt) (b : BulletSt)
    (hpre : ∀ b2 ∈ pre,
      ¬ distSq b2.pos epos < (bulletRadius + 12) * (bulletRadius + 12))
    (hb : distSq b.pos epos < (bulletRadius + 12) * (bulletRadius + 12)) :
    scanBullets epos (pre ++ b :: post) = some (pre ++ post) := by
  induction pre with
  | nil => simp [scanBullets, if_pos hb]
  | cons a pre ih =>
    have ha := hpre a (by simp)
    have ih2 := ih fun b2 h => hpre b2 (by simp [h])
    simp only [List.cons_append, scanBullets, if_neg ha, List.append_eq, ih2]

/-- C1: when the bullet list is `pre ++ b :: post` with nothing in `pre` in
contact range of the (already moved) enemy and `b` in range, exactly `b` is
removed — `post` is never examined, even if bullets there are also in
range — and the enemy takes exactly 25 damage.  If its health stays
positive, the enemy survives with 25 fewer health and no score or kill is
awarded (only the player-contact check runs); if its health drops to ≤ 0,
the enemy is removed from the active set and exactly score +10 and one kill
are awarded. -/
theorem C1_first_bullet_hit (ppos : Vec) (e : EnemySt) (pre post : List BulletSt)
    (b : BulletSt)
    (hpre : ∀ b2 ∈ pre,
      ¬ distSq b2.pos e.pos < (bulletRadius + 12) * (bulletRadius + 12))
    (hb : distSq b.pos e.pos < (bulletRadius + 12) * (bulletRadius + 12)) :
    ((enemyCollide ppos e (pre ++ b :: post)).bullets = pre ++ post) ∧
    (0 < e.health - 25 →
      enemyCollide ppos e (pre ++ b :: post) =
        ⟨[{ e with health := e.health - 25 }], pre ++ post, 0, 0,
          contactDamage ppos e.pos⟩) ∧
    (e.health - 25 ≤ 0 →
      enemyCollide ppos e (pre ++ b :: post) = ⟨[], pre ++ post, 10, 1, 0⟩) := by
  have hscan := scanBullets_first e.pos pre post b hpre hb
  have halive : ∀ h : ℤ, 0 < h → isAlive h = true := fun h hh => by
    simp [isAlive, hh]
  have hdead : ∀ h : ℤ, h ≤ 0 → ¬ isAlive h = true := fun h hh => by
    simp [isAlive]
    omega
  refine ⟨?_, ?_, ?_⟩
  · simp only [enemyCollide, hscan]
    by_cases h : 0 < e.health - 25
    · rw [if_pos (halive _ (by simpa [takeDamage] using h))]
    · rw [if_neg (hdead _ (by simp [takeDamage]; omega))]
  · intro h
    simp only [enemyCollide, hscan]
    rw [if_pos (halive _ (by simpa [takeDamage] using h))]
    simp [takeDamage]
  · intro h
    simp only [enemyCollide, hscan]
    rw [if_neg (hdead _ (by simpa [takeDamage] using h))]

/-- Witness for C1, matching the spec scenario: a bullet at distance 0 from
an enemy with health 25 kills it (damage 25, score +10, one kill, enemy
removed), while an out-of-range bullet before it and a second in-range
bullet after it are both left in the list. -/
theorem C1_first_bullet_hit_witness :
    enemyCollide ⟨0, 0⟩ ⟨⟨100, 100⟩, ⟨0, 0⟩, 1, 25⟩
        ([⟨⟨500, 500⟩, ⟨0, 0⟩⟩] ++ ⟨⟨100, 100⟩, ⟨0, 0⟩⟩ :: [⟨⟨101, 100⟩, ⟨0, 0⟩⟩]) =
      ⟨[], [⟨⟨500, 500⟩, ⟨0, 0⟩⟩] ++ [⟨⟨101, 100⟩, ⟨0, 0⟩⟩], 10, 1, 0⟩ := by
  exact (C1_first_bullet_hit ⟨0, 0⟩ ⟨⟨100, 100⟩, ⟨0, 0⟩, 1, 25⟩
    [⟨⟨500, 500⟩, ⟨0, 0⟩⟩] [⟨⟨101, 100⟩, ⟨0, 0⟩⟩] ⟨⟨100, 100⟩, ⟨0, 0⟩⟩
    (by with_unfolding_all decide) (by with_unfolding_all decide)).2.2
    (by norm_num)

/-! ### Enemy loop bookkeeping, spawning and session counters
(claims C4, C8, C9) -/

lemma enemyFrame_spec (ops : NormOps) (ppos : Vec) (e : EnemySt) (bs : List BulletSt) :
    (enemyFrame ops ppos e bs).enemies.length ≤ 1 ∧
    (∀ e2 ∈ (enemyFrame ops ppos e bs).enemies, e2.health ≤ e.health) ∧
    (enemyFrame ops ppos e bs).scoreInc = 10 * (enemyFrame ops ppos e bs).killInc ∧
    0 ≤ (enemyFrame ops ppos e bs).playerDmg := by
  have hadv : (enemyAdvance ops ppos e).health = e.health := rfl
  have hcd : ∀ p q : Vec, 0 ≤ contactDamage p q := by
    intro p q
    unfold contactDamage
    split <;> norm_num
  unfold enemyFrame enemyCollide
  rcases scanBullets (enemyAdvance ops ppos e).pos bs with _ | bs2
  · simpa [hadv] using hcd ppos (enemyAdvance ops ppos e).pos
  · dsimp only
    by_cases h : isAlive (takeDamage (enemyAdvance ops ppos e).health 25) = true
    · rw [if_pos h]
      refine ⟨by simp, ?_, by simp, by simpa using hcd ppos (enemyAdvance ops ppos e).pos⟩
      intro e2 he2
      simp only [List.mem_singleton] at he2
      subst he2
      simp only [takeDamage, hadv]
      omega
    · rw [if_neg h]
      simp

lemma enemiesLoop_spec (ops : NormOps) (ppos : Vec) (es : List EnemySt) :
    ∀ bs : List BulletSt,
    (enemiesLoop ops ppos es bs).enemies.length ≤ es.length ∧
    (∀ e2 ∈ (enemiesLoop ops ppos es bs).enemies, ∃ e ∈ es, e2.health ≤ e.health) ∧
    (enemiesLoop ops ppos es bs).scoreInc = 10 * (enemiesLoop ops ppos es bs).killInc ∧
    0 ≤ (enemiesLoop ops ppos es bs).playerDmg := by
  induction es with
  | nil => intro bs; simp [enemiesLoop]
  | cons e es ih =>
    intro bs
    have h1 := enemyFrame_spec ops ppos e bs
    have h2 := ih (enemyFrame ops ppos e bs).bullets
    simp only [enemiesLoop]
    refine ⟨?_, ?_, ?_, ?_⟩
    · simp only [List.length_append, List.length_cons]
      omega
    · intro e2 he2
      rcases List.mem_append.1 he2 with h | h
      · exact ⟨e, by simp, h1.2.1 e2 h⟩
      · obtain ⟨e3, he3, hle⟩ := h2.2.1 e2 h
        exact ⟨e3, by simp [he3], hle⟩
    · simp only [h1.2.2.1, h2.2.2.1]
      ring
    · have := h1.2.2.2
      have := h2.2.2.2
      omega

lemma frameStep_enemies (ops : NormOps) (i : FrameInput) (s : GameSt) :
    (frameStep ops i s).enemies =
      (spawnStep (s.timeSinceLastSpawn + i.dt)
        (enemiesLoop ops (moveVec s.player.pos (playerVel i.keyW i.keyS i.keyA i.keyD))
          s.enemies
          (bulletsStep (i.fires.foldl
            (fun st m => handleFire ops s.player.pos m st)
            (s.bullets, s.bulletElapsed + i.dt)).1)).enemies
        i.randX i.randY i.randS).2 := rfl

lemma frameStep_timer (ops : NormOps) (i : FrameInput) (s : GameSt) :
    (frameStep ops i s).timeSinceLastSpawn =
      (spawnStep (s.timeSinceLastSpawn + i.dt)
        (enemiesLoop ops (moveVec s.player.pos (playerVel i.keyW i.keyS i.keyA i.keyD))
          s.enemies
          (bulletsStep (i.fires.foldl
            (fun st m => handleFire ops s.player.pos m st)
            (s.bullets, s.bulletElapsed + i.dt)).1)).enemies
        i.randX i.randY i.randS).1 := rfl

/-- C4: the spawn check fires exactly when the accumulated timer is strictly
above 3.0 and the enemy count at the check is strictly below 10; it then
appends exactly one enemy — at a position inside the window given by the
`rand() % width/height` draws, with health 50 — and resets the timer to 0.
At (or above) the cap nothing is spawned and the timer is left to keep
accumulating.  The check keeps the count at most 10, and a whole frame never
pushes the count above 10 (the enemy loop only removes enemies).  At frame
level, the spawn timer either grows by exactly the frame time (no reset) or
is reset to 0, the latter only when it had exceeded 3.0 — so while spawning
is blocked the timer accumulates and the first later below-cap check with
timer > 3 spawns at once. -/
theorem C4_spawn_policy (ops : NormOps) (i : FrameInput) (s : GameSt)
    (timer : ℚ) (es : List EnemySt) (rX rY rS : ℕ) :
    (timer > 3 → es.length < 10 →
      spawnStep timer es rX rY rS = (0, es ++ [mkEnemy rX rY rS]) ∧
      (0 : ℚ) ≤ (mkEnemy rX rY rS).pos.x ∧ (mkEnemy rX rY rS).pos.x < WINDOW_WIDTH ∧
      (0 : ℚ) ≤ (mkEnemy rX rY rS).pos.y ∧ (mkEnemy rX rY rS).pos.y < WINDOW_HEIGHT ∧
      (mkEnemy rX rY rS).health = 50) ∧
    (¬ (timer > 3 ∧ es.length < 10) → spawnStep timer es rX rY rS = (timer, es)) ∧
    (es.length ≤ 10 → (spawnStep timer es rX rY rS).2.length ≤ 10) ∧
    (s.enemies.length ≤ 10 → (frameStep ops i s).enemies.length ≤ 10) ∧
    ((frameStep ops i s).timeSinceLastSpawn = s.timeSinceLastSpawn + i.dt ∨
      ((frameStep ops i s).timeSinceLastSpawn = 0 ∧
        s.timeSinceLastSpawn + i.dt > 3)) := by
  refine ⟨?_, ?_, ?_, ?_, ?_⟩
  · intro ht hc
    refine ⟨by simp [spawnStep, ht, hc], ?_, ?_, ?_, ?_, rfl⟩
    · simp only [mkEnemy]
      positivity
    · simp only [mkEnemy, WINDOW_WIDTH]
      exact_mod_cast Nat.cast_lt_ofNat.2 (Nat.mod_lt _ (by norm_num))
    · simp only [mkEnemy]
      positivity
    · simp only [mkEnemy, WINDOW_HEIGHT]
      exact_mod_cast Nat.cast_lt_ofNat.2 (Nat.mod_lt _ (by norm_num))
  · intro h
    simp [spawnStep, h]
  · intro h
    unfold spawnStep
    split
    · next hcond => simp only [List.length_append, List.length_singleton]; omega
    · exact h
  · intro h
    rw [frameStep_enemies]
    have hloop := (enemiesLoop_spec ops
      (moveVec s.player.pos (playerVel i.keyW i.keyS i.keyA i.keyD)) s.enemies
      (bulletsStep (i.fires.foldl
        (fun st m => handleFire ops s.player.pos m st)
        (s.bullets, s.bulletElapsed + i.dt)).1)).1
    unfold spawnStep
    split
    · next hcond => simp only [List.length_append, List.length_singleton]; omega
    · dsimp only
      omega
  · rw [frameStep_timer]
    unfold spawnStep
    split
    · next hcond => exact Or.inr ⟨rfl, hcond.1⟩
    · exact Or.inl rfl

/-- Witness for C4: timer 4 > 3 with 1 enemy spawns one enemy at
(1100, 650) and resets the timer; timer 4 with 10 enemies spawns nothing
and keeps the timer. -/
theorem C4_spawn_policy_witness :
    spawnStep 4 [mkEnemy 0 0 0] 1100 650 3 =
      (0, [mkEnemy 0 0 0] ++ [mkEnemy 1100 650 3]) ∧
    spawnStep 4 (List.replicate 10 (mkEnemy 0 0 0)) 1100 650 3 =
      (4, List.replicate 10 (mkEnemy 0 0 0)) ∧
    (frameStep ops0 ⟨false, false, false, false, [], 0, 0, 0, 0⟩
      (initState [(0, 0, 0)])).enemies.length ≤ 10 := by
  refine ⟨((C4_spawn_policy ops0 ⟨false, false, false, false, [], 0, 0, 0, 0⟩
      (initState [(0, 0, 0)]) 4 [mkEnemy 0 0 0] 1100 650 3).1
      (by norm_num) (by simp)).1, ?_, ?_⟩
  · exact (C4_spawn_policy ops0 ⟨false, false, false, false, [], 0, 0, 0, 0⟩
      (initState [(0, 0, 0)]) 4 (List.replicate 10 (mkEnemy 0 0 0)) 1100 650 3).2.1
      (by simp)
  · exact (C4_spawn_policy ops0 ⟨false, false, false, false, [], 0, 0, 0, 0⟩
      (initState [(0, 0, 0)]) 4 [] 0 0 0).2.2.2.1 (by simp [initState])

lemma frameStep_player_health_le (ops : NormOps) (i : FrameInput) (s : GameSt) :
    (frameStep ops i s).player.health ≤ s.player.health := by
  have hloop := enemiesLoop_spec ops
    (moveVec s.player.pos (playerVel i.keyW i.keyS i.keyA i.keyD)) s.enemies
    (bulletsStep (i.fires.foldl
      (fun st m => handleFire ops s.player.pos m st)
      (s.bullets, s.bulletElapsed + i.dt)).1)
  show s.player.health - _ - _ ≤ s.player.health
  have h1 := hloop.2.2.2
  have h2 : (0 : ℤ) ≤
      (if isInside (zoneUpdate s.radius)
          (moveVec s.player.pos (playerVel i.keyW i.keyS i.keyA i.keyD)) then 0
        else 1) := by
    split <;> norm_num
  omega

lemma enemiesLoop_per_entity (ops : NormOps) (ppos : Vec) :
    ∀ (es : List EnemySt) (bs : List BulletSt),
    ∃ os : List (List EnemySt),
      List.Forall₂ (fun e o => o.length ≤ 1 ∧ ∀ e2 ∈ o, e2.health ≤ e.health) es os ∧
      (enemiesLoop ops ppos es bs).enemies = os.flatten := by
  intro es
  induction es with
  | nil => intro bs; exact ⟨[], List.Forall₂.nil, rfl⟩
  | cons e es ih =>
    intro bs
    obtain ⟨os, hf, he⟩ := ih (enemyFrame ops ppos e bs).bullets
    have hspec := enemyFrame_spec ops ppos e bs
    refine ⟨(enemyFrame ops ppos e bs).enemies :: os, ?_, ?_⟩
    · exact List.Forall₂.cons ⟨hspec.1, hspec.2.1⟩ hf
    · simp only [enemiesLoop, List.flatten_cons, he]

/-- C8: across any frame the player's health never increases, and enemy
health is per-entity non-increasing: the pre-frame enemies match, in order,
a list of per-enemy survivor chunks — each chunk holds at most one enemy
(the same entity after this frame, when it survived) whose health is no
larger than that entity's own pre-frame health — and the post-frame enemy
list is exactly their concatenation, possibly followed by the one enemy
created by this frame's spawn, whose health at creation is exactly 50; an
entity is alive exactly when its health is positive. -/
theorem C8_health_monotone (ops : NormOps) (i : FrameInput) (s : GameSt) :
    (frameStep ops i s).player.health ≤ s.player.health ∧
    (∃ os : List (List EnemySt),
      List.Forall₂ (fun e o => o.length ≤ 1 ∧ ∀ e2 ∈ o, e2.health ≤ e.health)
        s.enemies os ∧
      ((frameStep ops i s).enemies = os.flatten ∨
        (frameStep ops i s).enemies = os.flatten ++ [mkEnemy i.randX i.randY i.randS])) ∧
    (mkEnemy i.randX i.randY i.randS).health = 50 ∧
    (∀ h : ℤ, isAlive h = true ↔ 0 < h) := by
  obtain ⟨os, hf, he⟩ := enemiesLoop_per_entity ops
    (moveVec s.player.pos (playerVel i.keyW i.keyS i.keyA i.keyD)) s.enemies
    (bulletsStep (i.fires.foldl
      (fun st m => handleFire ops s.player.pos m st)
      (s.bullets, s.bulletElapsed + i.dt)).1)
  refine ⟨frameStep_player_health_le ops i s, ⟨os, hf, ?_⟩, rfl,
    fun h => by simp [isAlive]⟩
  rw [frameStep_enemies]
  unfold spawnStep
  split
  · exact Or.inr (by rw [he])
  · exact Or.inl (by rw [he])

/-- Witness for C8 on a concrete frame: a player standing outside the zone
with an adjacent enemy loses health (101 → 99 here: contact plus zone
damage), and the enemy's health does not grow. -/
theorem C8_health_monotone_witness :
    (frameStep ops0 ⟨false, false, false, false, [], 0, 0, 0, 0⟩
      ⟨⟨⟨0, 0⟩, ⟨0, 0⟩, 101⟩, [⟨⟨0, 0⟩, ⟨0, 0⟩, 1, 50⟩], [], 350, 0, 0, 0, 0⟩).player.health ≤
      101 ∧
    isAlive 1 = true ∧ isAlive 0 = false := by
  have h := C8_health_monotone ops0 ⟨false, false, false, false, [], 0, 0, 0, 0⟩
    ⟨⟨⟨0, 0⟩, ⟨0, 0⟩, 101⟩, [⟨⟨0, 0⟩, ⟨0, 0⟩, 1, 50⟩], [], 350, 0, 0, 0, 0⟩
  refine ⟨h.1, ?_, ?_⟩
  · rw [h.2.2.2 1]
    norm_num
  · have := h.2.2.2 0
    rcases hh : isAlive 0 with _ | _
    · rfl
    · rw [hh] at this
      norm_num at this

/-- C9: score and kill count both start at 0; the enemy loop always
produces a score increment exactly ten times its kill increment (the two
counters only move together, +10 and +1, on a lethal hit); hence the
invariant score = 10 · kills is preserved by every frame and holds at the
end of every frame of every session. -/
theorem C9_score_kill_invariant (ops : NormOps) (i : FrameInput) (s : GameSt)
    (rands : List (ℕ × ℕ × ℕ)) (inputs : List FrameInput) :
    (initState rands).score = 0 ∧ (initState rands).killCount = 0 ∧
    (∀ (ppos : Vec) (es : List EnemySt) (bs : List BulletSt),
      (enemiesLoop ops ppos es bs).scoreInc = 10 * (enemiesLoop ops ppos es bs).killInc) ∧
    (s.score = 10 * s.killCount →
      (frameStep ops i s).score = 10 * (frameStep ops i s).killCount) ∧
    (inputs.foldl (fun st j => frameStep ops j st) (initState rands)).score =
      10 * (inputs.foldl (fun st j => frameStep ops j st) (initState rands)).killCount := by
  have hpres : ∀ (j : FrameInput) (t : GameSt), t.score = 10 * t.killCount →
      (frameStep ops j t).score = 10 * (frameStep ops j t).killCount := by
    intro j t ht
    show t.score + _ = 10 * (t.killCount + _)
    rw [(enemiesLoop_spec ops
      (moveVec t.player.pos (playerVel j.keyW j.keyS j.keyA j.keyD)) t.enemies
      (bulletsStep (j.fires.foldl
        (fun st m => handleFire ops t.player.pos m st)
        (t.bullets, t.bulletElapsed + j.dt)).1)).2.2.1, ht]
    ring
  refine ⟨rfl, rfl, fun ppos es bs => (enemiesLoop_spec ops ppos es bs).2.2.1,
    hpres i s, ?_⟩
  have : ∀ (l : List FrameInput) (t : GameSt), t.score = 10 * t.killCount →
      (l.foldl (fun st j => frameStep ops j st) t).score =
        10 * (l.foldl (fun st j => frameStep ops j st) t).killCount := by
    intro l
    induction l with
    | nil => intro t ht; exact ht
    | cons j l ih => intro t ht; exact ih (frameStep ops j t) (hpres j t ht)
  exact this inputs (initState rands) rfl

/-- Witness for C9: one frame in which a point-blank bullet kills a health-25
enemy yields score 10 and kill count 1 from a zero start. -/
theorem C9_score_kill_invariant_witness :
    (frameStep ops0 ⟨false, false, false, false, [], 0, 0, 0, 0⟩
      ⟨⟨windowCenter, ⟨0, 0⟩, 100⟩, [⟨⟨100, 100⟩, ⟨0, 0⟩, 0, 25⟩],
        [⟨⟨100, 100⟩, ⟨0, 0⟩⟩], 350, 0, 0, 0, 0⟩).score =
    10 * (frameStep ops0 ⟨false, false, false, false, [], 0, 0, 0, 0⟩
      ⟨⟨windowCenter, ⟨0, 0⟩, 100⟩, [⟨⟨100, 100⟩, ⟨0, 0⟩, 0, 25⟩],
        [⟨⟨100, 100⟩, ⟨0, 0⟩⟩], 350, 0, 0, 0, 0⟩).killCount ∧
    (frameStep ops0 ⟨false, false, false, false, [], 0, 0, 0, 0⟩
      ⟨⟨windowCenter, ⟨0, 0⟩, 100⟩, [⟨⟨100, 100⟩, ⟨0, 0⟩, 0, 25⟩],
        [⟨⟨100, 100⟩, ⟨0, 0⟩⟩], 350, 0, 0, 0, 0⟩).score = 10 := by
  refine ⟨(C9_score_kill_invariant ops0 ⟨false, false, false, false, [], 0, 0, 0, 0⟩
    ⟨⟨windowCenter, ⟨0, 0⟩, 100⟩, [⟨⟨100, 100⟩, ⟨0, 0⟩, 0, 25⟩],
      [⟨⟨100, 100⟩, ⟨0, 0⟩⟩], 350, 0, 0, 0, 0⟩ [] []).2.2.2.1 rfl, ?_⟩
  with_unfolding_all decide

/-! ### Session end (claim C7) -/

/-- C7: the first frame after which the player's health is observed ≤ 0
ends the session immediately: the loop returns with the score file written
exactly once, holding the then-current score and kill count, and none of
the remaining inputs are ever simulated; while the player survives, the
loop simply continues.  The file is exactly two lines, "Final Score: s" and
"Kills: k", joined by one newline. -/
theorem C7_session_end (ops : NormOps) (i : FrameInput) (rest : List FrameInput)
    (s : GameSt) (sc k : ℤ) :
    ((frameStep ops i s).player.health ≤ 0 →
      runFrames ops (i :: rest) s =
        Sum.inr (frameStep ops i s,
          scoreFile (frameStep ops i s).score (frameStep ops i s).killCount)) ∧
    (0 < (frameStep ops i s).player.health →
      runFrames ops (i :: rest) s = runFrames ops rest (frameStep ops i s)) ∧
    scoreFileLines sc k = ["Final Score: " ++ toString sc, "Kills: " ++ toString k] ∧
    scoreFile sc k = ("Final Score: " ++ toString sc) ++ "\n" ++ ("Kills: " ++ toString k) := by
  refine ⟨?_, ?_, rfl, ?_⟩
  · intro h
    have hdead : ¬ isAlive (frameStep ops i s).player.health = true := by
      simp only [isAlive, decide_eq_true_eq, not_lt]
      omega
    simp only [runFrames, if_neg hdead]
  · intro h
    have halive : isAlive (frameStep ops i s).player.health = true := by
      simp only [isAlive, decide_eq_true_eq]
      omega
    simp only [runFrames, if_pos halive]
  · show String.intercalate "\n" _ = _
    simp [scoreFileLines, String.intercalate, String.intercalate.go]

/-- Witness for C7: a player at the corner (far outside the zone) with 1
health dies to zone damage on the very first frame; the session ends right
there with the score file recording score 30 and 3 kills, and a whole list
of further queued inputs is discarded. -/
theorem C7_session_end_witness :
    runFrames ops0
      [⟨false, false, false, false, [], 0, 0, 0, 0⟩,
       ⟨true, false, false, false, [], 1, 2, 3, 4⟩]
      ⟨⟨⟨0, 0⟩, ⟨0, 0⟩, 1⟩, [], [], 350, 30, 3, 0, 0⟩ =
      Sum.inr
        (frameStep ops0 ⟨false, false, false, false, [], 0, 0, 0, 0⟩
          ⟨⟨⟨0, 0⟩, ⟨0, 0⟩, 1⟩, [], [], 350, 30, 3, 0, 0⟩,
         scoreFile
          (frameStep ops0 ⟨false, false, false, false, [], 0, 0, 0, 0⟩
            ⟨⟨⟨0, 0⟩, ⟨0, 0⟩, 1⟩, [], [], 350, 30, 3, 0, 0⟩).score
          (frameStep ops0 ⟨false, false, false, false, [], 0, 0, 0, 0⟩
            ⟨⟨⟨0, 0⟩, ⟨0, 0⟩, 1⟩, [], [], 350, 30, 3, 0, 0⟩).killCount) := by
  exact (C7_session_end ops0 ⟨false, false, false, false, [], 0, 0, 0, 0⟩
    [⟨true, false, false, false, [], 1, 2, 3, 4⟩]
    ⟨⟨⟨0, 0⟩, ⟨0, 0⟩, 1⟩, [], [], 350, 30, 3, 0, 0⟩ 0 0).1
    (by with_unfolding_all decide)

/-! ### Unclamped player movement (claim C10) -/

lemma iterate_player_health_le (ops : NormOps) (i : FrameInput) :
    ∀ (n : ℕ) (s : GameSt),
      ((frameStep ops i)^[n] s).player.health ≤ s.player.health := by
  intro n
  induction n with
  | zero => intro s; exact le_refl _
  | succ n ih =>
    intro s
    rw [Function.iterate_succ_apply]
    exact le_trans (ih (frameStep ops i s)) (frameStep_player_health_le ops i s)

lemma runFrames_replicate_alive (ops : NormOps) (i : FrameInput) :
    ∀ (n : ℕ) (s : GameSt), 0 < ((frameStep ops i)^[n] s).player.health →
      runFrames ops (List.replicate n i) s = Sum.inl ((frameStep ops i)^[n] s) := by
  intro n
  induction n with
  | zero => intro s _; rfl
  | succ n ih =>
    intro s h
    have h2 : (frameStep ops i)^[n + 1] s = (frameStep ops i)^[n] (frameStep ops i s) :=
      Function.iterate_succ_apply (frameStep ops i) n s
    have halive : 0 < (frameStep ops i s).player.health := by
      rw [h2] at h
      exact lt_of_lt_of_le h (iterate_player_health_le ops i n (frameStep ops i s))
    have hb : isAlive (frameStep ops i s).player.health = true := by
      simp [isAlive, halive]
    simp only [List.replicate_succ, runFrames, if_pos hb]
    rw [ih (frameStep ops i s) (by rw [← h2]; exact h), h2]

/-- C10: the player's per-frame position update is the unconditional
addition of the input-derived velocity — no clamping against the window
ever happens — so holding A for 201 frames walks the player from x = 600 to
x = −3, strictly outside the window, while the session keeps running
normally (`Sum.inl`, player alive, all five enemies still present, score
untouched): the only consequence is the out-of-zone damage of 1 per frame,
exactly 89 points for the 89 frames spent outside the shrinking zone. -/
theorem C10_player_never_clamped :
    (∀ (ops : NormOps) (i : FrameInput) (s : GameSt),
      (frameStep ops i s).player.pos =
        moveVec s.player.pos (playerVel i.keyW i.keyS i.keyA i.keyD)) ∧
    runFrames ops0 (List.replicate 201 holdLeftInput) (initState farRands) =
      Sum.inl ((frameStep ops0 holdLeftInput)^[201] (initState farRands)) ∧
    ((frameStep ops0 holdLeftInput)^[201] (initState farRands)).player.pos.x < 0 ∧
    ((frameStep ops0 holdLeftInput)^[201] (initState farRands)).player.health = 100 - 89 ∧
    ((frameStep ops0 holdLeftInput)^[201] (initState farRands)).enemies.length = 5 ∧
    ((frameStep ops0 holdLeftInput)^[201] (initState farRands)).score = 0 := by
  have hfacts :
      ((frameStep ops0 holdLeftInput)^[201] (initState farRands)).player.pos.x < 0 ∧
      ((frameStep ops0 holdLeftInput)^[201] (initState farRands)).player.health = 100 - 89 ∧
      ((frameStep ops0 holdLeftInput)^[201] (initState farRands)).enemies.length = 5 ∧
      ((frameStep ops0 holdLeftInput)^[201] (initState farRands)).score = 0 := by
    with_unfolding_all decide
  refine ⟨fun ops i s => rfl, ?_, hfacts.1, hfacts.2.1, hfacts.2.2⟩
  exact runFrames_replicate_alive ops0 holdLeftInput 201 (initState farRands)
    (by rw [hfacts.2.1]; norm_num)

end Helldiver
